import Mathlib

/-!
Verification development for the gator feed aggregator's polling and
ingestion engine (package main: `scrapeFeeds`, `fetchFeed`, `unescapeFeed`,
`handlerAgg`), over a shallow embedding of the Go source.  Timestamps are
modelled as `Nat`, UUIDs as `Nat`, Go `error` values as their message
`String`, and the Postgres-backed store as an in-memory `Store` record.
External effects (the HTTP fetch and XML unmarshal, and environmental
store failures) enter as explicit parameters.
-/

namespace Gator

/-- The `RSSItem` struct: title, link, description, pubDate (all strings,
the publication date deliberately kept unparsed by the parser). -/
structure RSSItem where
  Title : String
  Link : String
  Description : String
  PubDate : String
  deriving DecidableEq

/-- The anonymous channel struct inside `RSSFeed`: title, link,
description and the ordered item list. -/
structure RSSChannel where
  Title : String
  Link : String
  Description : String
  Item : List RSSItem
  deriving DecidableEq

/-- The `RSSFeed` struct: a single channel. -/
structure RSSFeed where
  Channel : RSSChannel
  deriving DecidableEq

/-- Models Go stdlib `html.UnescapeString` on a character list, restricted
to the common named entities (the stdlib table is larger; the entities
below are the ones exercised in this development). -/
def unescapeChars : List Char → List Char
  | [] => []
  | '&' :: 'a' :: 'm' :: 'p' :: ';' :: rest => '&' :: unescapeChars rest
  | '&' :: 'l' :: 't' :: ';' :: rest => '<' :: unescapeChars rest
  | '&' :: 'g' :: 't' :: ';' :: rest => '>' :: unescapeChars rest
  | '&' :: 'q' :: 'u' :: 'o' :: 't' :: ';' :: rest => '"' :: unescapeChars rest
  | c :: rest => c :: unescapeChars rest

/-- Models Go stdlib `html.UnescapeString` on strings. -/
def htmlUnescape (s : String) : String :=
  String.mk (unescapeChars s.data)

/-- The per-item body of `unescapeFeed`'s loop: unescape the item's
title and description, leaving link and pubDate untouched. -/
def unescapeItem (it : RSSItem) : RSSItem :=
  { it with Title := htmlUnescape it.Title,
            Description := htmlUnescape it.Description }

/-- `unescapeFeed`: unescapes the channel title and description and each
item's title and description, in place. -/
def unescapeFeed (feed : RSSFeed) : RSSFeed :=
  { Channel := { feed.Channel with
      Title := htmlUnescape feed.Channel.Title,
      Description := htmlUnescape feed.Channel.Description,
      Item := feed.Channel.Item.map unescapeItem } }

/-- `fetchFeed`: the HTTP request, body read and `xml.Unmarshal` are
external; their combined outcome (a transport or format error, or the
structurally parsed feed) is the `raw` parameter.  On success the parsed
feed is unescaped exactly once before being returned. -/
def fetchFeed (raw : Except String RSSFeed) : Except String RSSFeed :=
  match raw with
  | Except.error e => Except.error e
  | Except.ok feed => Except.ok (unescapeFeed feed)

/-- A row of the `feeds` table (sql/schema/002_feeds.sql), restricted to
the columns the polling engine reads or writes. -/
structure Feed where
  id : Nat
  name : String
  url : String
  lastFetchedAt : Option Nat
  deriving DecidableEq

/-- A row of the `posts` table (sql/schema/005_posts.sql); `url` carries
a UNIQUE constraint named `posts_url_key`. -/
structure Post where
  id : Nat
  createdAt : Nat
  updatedAt : Nat
  title : String
  url : String
  description : String
  publishedAt : Nat
  feedID : Nat
  deriving DecidableEq

/-- The persistent store: the `feeds` and `posts` tables. -/
structure Store where
  feeds : List Feed
  posts : List Post
  deriving DecidableEq

/-- The exact error message `lib/pq` produces for a violation of the
`posts.url` UNIQUE constraint, compared against verbatim in
`scrapeFeeds`. -/
def dupURLErrMsg : String :=
  "pq: duplicate key value violates unique constraint \"posts_url_key\""

/-- Whether some stored post already carries this URL. -/
def postURLPresent (st : Store) (u : String) : Bool :=
  st.posts.any (fun p => p.url = u)

/-- The `CreatePost` query (sql/queries, INSERT INTO posts) against the
`posts` table with its UNIQUE `url` constraint: a duplicate URL fails
with the pq unique-violation message; `fault` injects an environmental
store failure (connection loss, etc.) with its message. -/
def CreatePost (fault : Option String) (st : Store) (p : Post) :
    Except String Store :=
  match fault with
  | some e => Except.error e
  | none =>
    if postURLPresent st p.url then Except.error dupURLErrMsg
    else Except.ok { st with posts := st.posts ++ [p] }

/-- Picks the feed to fetch sooner of two: null last-fetched first,
then earlier timestamp, first argument on ties. -/
def betterFeed (a b : Feed) : Feed :=
  match a.lastFetchedAt, b.lastFetchedAt with
  | none, _ => a
  | some _, none => b
  | some ta, some tb => if tb < ta then b else a

/-- Modelled from the spec: `GetNextFeedToFetch` lives in the generated
`internal/database` package, absent from the sources; §6 specifies
`GetNextFeedToFetch() -> Feed | NotFound`, earliest-last-fetched-first
with null-first ordering and deterministic tie-break.  `NotFound` is the
Go `sql.ErrNoRows` message. -/
def GetNextFeedToFetch (st : Store) : Except String Feed :=
  match st.feeds with
  | [] => Except.error "sql: no rows in result set"
  | f :: fs => Except.ok (fs.foldl betterFeed f)

/-- Sets the last-fetched stamp of the feed with this id to `now`. -/
def markFeeds (feeds : List Feed) (fid : Nat) (now : Nat) : List Feed :=
  feeds.map (fun f => if f.id = fid then { f with lastFetchedAt := some now } else f)

/-- Modelled from the spec: `MarkFeedFetched` lives in the generated
`internal/database` package, absent from the sources; §6 specifies
`MarkFeedFetched(feedId, timestamp) -> ok | NotFound`: it writes the
feed's last-fetched timestamp. -/
def MarkFeedFetched (st : Store) (fid : Nat) (now : Nat) : Except String Store :=
  if st.feeds.any (fun f => f.id = fid) then
    Except.ok { st with feeds := markFeeds st.feeds fid now }
  else Except.error "not found"

/-- The post record built inside `scrapeFeeds`'s loop for one item:
fresh id, wall-clock created/updated stamps, the item's title, link
(verbatim, as the post URL), description, the parsed publication time,
and the owning feed's id. -/
def mkPost (pid : Nat) (now : Nat) (item : RSSItem) (pubTime : Nat)
    (fid : Nat) : Post :=
  { id := pid, createdAt := now, updatedAt := now, title := item.Title,
    url := item.Link, description := item.Description,
    publishedAt := pubTime, feedID := fid }

/-- The message of the error `scrapeFeeds` returns when an item's
pubDate fails `time.Parse(time.RFC1123Z, ...)`: it names the offending
date string and the feed's channel title (quote characters of the Go
format string elided). -/
def dateErrMsg (d : String) (title : String) : String :=
  "Couldnt parse date " ++ d ++ " in feed " ++ title

/-- Outcome of one poll cycle (or of the item loop inside it): the store
as left behind, the lines printed to standard output, and the error
returned to the caller, if any. -/
structure CycleResult where
  store : Store
  output : List String
  err : Option String
  deriving DecidableEq

/-- The item loop of `scrapeFeeds` (part_002 lines 440-462) and its
final `return nil`: for each item in order, parse the pubDate with the
strict RFC1123Z format (`pt` models `time.Parse`, `none` = failure; on
failure the whole run aborts, returning the date error); otherwise
attempt `CreatePost` (`flt idx` is the environmental fault, if any, for
the item at this index; `gen idx` the fresh uuid); a failure whose
message is exactly `dupURLErrMsg` is silently skipped, any other
failure message is printed to standard output, and in either case the
loop continues with the next item. -/
def scrapeItems (pt : String → Option Nat) (flt : Nat → Option String)
    (fid : Nat) (title : String) (now : Nat) (gen : Nat → Nat) :
    List RSSItem → Nat → Store → List String → CycleResult
  | [], _, st, out => ⟨st, out, none⟩
  | item :: rest, idx, st, out =>
    match pt item.PubDate with
    | none => ⟨st, out, some (dateErrMsg item.PubDate title)⟩
    | some pubTime =>
      match CreatePost (flt idx) st (mkPost (gen idx) now item pubTime fid) with
      | Except.ok st2 =>
        scrapeItems pt flt fid title now gen rest (idx + 1) st2 out
      | Except.error e =>
        if e = dupURLErrMsg then
          scrapeItems pt flt fid title now gen rest (idx + 1) st out
        else
          scrapeItems pt flt fid title now gen rest (idx + 1) st (out ++ [e])

/-- `scrapeFeeds`: select the next feed (error surfaced on failure, in
particular when no feeds exist), mark it fetched before the network
call, fetch and parse (`raw` carries the external HTTP + unmarshal
outcome), then run the item loop.  The result records the store left
behind, the standard-output lines, and the returned error. -/
def scrapeFeeds (pt : String → Option Nat) (flt : Nat → Option String)
    (gen : Nat → Nat) (now : Nat) (raw : Except String RSSFeed)
    (st : Store) : CycleResult :=
  match GetNextFeedToFetch st with
  | Except.error e => ⟨st, [], some ("Error getting feed from DB: " ++ e)⟩
  | Except.ok feedRow =>
    match MarkFeedFetched st feedRow.id now with
    | Except.error e =>
      ⟨st, [], some ("Error marking feed " ++ feedRow.name ++ " fetched: " ++ e)⟩
    | Except.ok st1 =>
      match fetchFeed raw with
      | Except.error e =>
        ⟨st1, [], some ("Error fetching feed " ++ feedRow.name ++ ": " ++ e)⟩
      | Except.ok feed =>
        scrapeItems pt flt feedRow.id feed.Channel.Title now gen
          feed.Channel.Item 0 st1 []

/-- Whether the scheduler loop proceeds to another iteration or stops. -/
inductive LoopControl where
  | next : LoopControl
  | halt : LoopControl
  deriving DecidableEq

/-- One iteration of `handlerAgg`'s unending `for ; ; <-ticker.C` loop
(part_002 lines 204-209): run a cycle, report its error (if any) to the
operator on standard error, and unconditionally continue with the next
tick. -/
def aggIterate (res : CycleResult) : List String × LoopControl :=
  (match res.err with
   | some e => ["Error scraping feed: " ++ e]
   | none => [], LoopControl.next)

/-- Does one stamp precede another?  A null stamp precedes everything. -/
def stampLE : Option Nat → Option Nat → Bool
  | none, _ => true
  | some _, none => false
  | some x, some y => decide (x ≤ y)

/-! Concrete fixtures used by witnesses and counterexamples. -/

/-- A `time.Parse` model that accepts every date string. -/
def ptAll : String → Option Nat := fun _ => some 0

/-- A `time.Parse` model that rejects exactly the string "bad date". -/
def ptW : String → Option Nat := fun s => if s = "bad date" then none else some 1

/-- No environmental store faults. -/
def flt0 : Nat → Option String := fun _ => none

/-- An environmental store fault on every insert, with a non-duplicate
message. -/
def fltC3 : Nat → Option String := fun _ => some "pq: connection reset by peer"

/-- A uuid generator for fixtures. -/
def gen0 : Nat → Nat := fun n => n

/-- A store with no feeds and no posts. -/
def emptyStore : Store := ⟨[], []⟩

/-- A single never-fetched feed. -/
def wFeed : Feed := ⟨1, "wf", "http://w", none⟩

/-- A store holding only `wFeed`. -/
def wStore : Store := ⟨[wFeed], []⟩

/-- An item whose title, link and description carry the `&amp;` entity. -/
def eItemA : RSSItem := ⟨"A &amp; B", "a&amp;b", "desc &amp; more", "Mon, 01 Jan 2024"⟩

/-- A feed whose channel fields and single item carry entities. -/
def eFeed : RSSFeed := ⟨⟨"A &amp; B", "http://chan?a=1&amp;b=2", "cd", [eItemA]⟩⟩

/-- A plain item with a parseable-looking date. -/
def c3Item : RSSItem := ⟨"t1", "http://w/p1", "d1", "Mon, 01 Jan 2024"⟩

/-- A one-item feed document. -/
def c3RSS : RSSFeed := ⟨⟨"chan", "http://chan", "cd", [c3Item]⟩⟩

/-- A store already holding the post for `c3Item`'s link. -/
def dupStore : Store := ⟨[wFeed], [mkPost 0 0 c3Item 0 1]⟩

/-- A valid item. -/
def itemGood1 : RSSItem := ⟨"g1", "http://w/a", "d", "ok"⟩

/-- Another valid item with a distinct link. -/
def itemGood2 : RSSItem := ⟨"g2", "http://w/b", "d", "ok"⟩

/-- An item whose date string `ptW` rejects. -/
def itemBad : RSSItem := ⟨"b", "http://w/c", "d", "bad date"⟩

/-! Helper lemmas about the store operations and the item loop. -/

/-- A successful `CreatePost` never touches the feeds table. -/
theorem CreatePost_ok_feeds {fault : Option String} {st : Store} {p : Post}
    {st2 : Store} (h : CreatePost fault st p = Except.ok st2) :
    st2.feeds = st.feeds := by
  cases fault with
  | some e => simp [CreatePost] at h
  | none =>
    by_cases hp : postURLPresent st p.url
    · simp [CreatePost, hp] at h
    · simp [CreatePost, hp] at h
      rw [← h]

/-- A successful `CreatePost` appends exactly the new post. -/
theorem CreatePost_ok_posts {fault : Option String} {st : Store} {p : Post}
    {st2 : Store} (h : CreatePost fault st p = Except.ok st2) :
    st2.posts = st.posts ++ [p] := by
  cases fault with
  | some e => simp [CreatePost] at h
  | none =>
    by_cases hp : postURLPresent st p.url
    · simp [CreatePost, hp] at h
    · simp [CreatePost, hp] at h
      rw [← h]

/-- The item loop never touches the feeds table. -/
theorem scrapeItems_feeds (pt : String → Option Nat) (flt : Nat → Option String)
    (fid : Nat) (title : String) (now : Nat) (gen : Nat → Nat) :
    ∀ (items : List RSSItem) (idx : Nat) (st : Store) (out : List String),
    (scrapeItems pt flt fid title now gen items idx st out).store.feeds = st.feeds := by
  intro items
  induction items with
  | nil => intro idx st out; rfl
  | cons item rest ih =>
    intro idx st out
    cases hpt : pt item.PubDate with
    | none => simp [scrapeItems, hpt]
    | some pubTime =>
      cases hcp : CreatePost (flt idx) st (mkPost (gen idx) now item pubTime fid) with
      | ok st2 =>
        simp only [scrapeItems, hpt, hcp]
        rw [ih (idx + 1) st2 out, CreatePost_ok_feeds hcp]
      | error e =>
        by_cases hd : e = dupURLErrMsg
        · simp only [scrapeItems, hpt, hcp, hd, if_pos rfl]
          exact ih (idx + 1) st out
        · simp only [scrapeItems, hpt, hcp, if_neg hd]
          exact ih (idx + 1) st (out ++ [e])

/-- The item loop only ever appends to the posts table. -/
theorem scrapeItems_posts_append (pt : String → Option Nat)
    (flt : Nat → Option String) (fid : Nat) (title : String) (now : Nat)
    (gen : Nat → Nat) :
    ∀ (items : List RSSItem) (idx : Nat) (st : Store) (out : List String),
    ∃ l, (scrapeItems pt flt fid title now gen items idx st out).store.posts
           = st.posts ++ l := by
  intro items
  induction items with
  | nil => intro idx st out; exact ⟨[], by simp [scrapeItems]⟩
  | cons item rest ih =>
    intro idx st out
    cases hpt : pt item.PubDate with
    | none => exact ⟨[], by simp [scrapeItems, hpt]⟩
    | some pubTime =>
      cases hcp : CreatePost (flt idx) st (mkPost (gen idx) now item pubTime fid) with
      | ok st2 =>
        obtain ⟨l, hl⟩ := ih (idx + 1) st2 out
        refine ⟨mkPost (gen idx) now item pubTime fid :: l, ?_⟩
        simp only [scrapeItems, hpt, hcp]
        rw [hl, CreatePost_ok_posts hcp]
        simp
      | error e =>
        by_cases hd : e = dupURLErrMsg
        · obtain ⟨l, hl⟩ := ih (idx + 1) st out
          refine ⟨l, ?_⟩
          simp only [scrapeItems, hpt, hcp, hd, if_pos rfl]
          exact hl
        · obtain ⟨l, hl⟩ := ih (idx + 1) st (out ++ [e])
          refine ⟨l, ?_⟩
          simp only [scrapeItems, hpt, hcp, if_neg hd]
          exact hl

/-- If every item's date parses, the item loop returns no error
(environmental store faults are printed, never returned). -/
theorem scrapeItems_err_none (pt : String → Option Nat)
    (flt : Nat → Option String) (fid : Nat) (title : String) (now : Nat)
    (gen : Nat → Nat) :
    ∀ (items : List RSSItem) (idx : Nat) (st : Store) (out : List String),
    (∀ it ∈ items, (pt it.PubDate).isSome) →
    (scrapeItems pt flt fid title now gen items idx st out).err = none := by
  intro items
  induction items with
  | nil => intro idx st out _; rfl
  | cons item rest ih =>
    intro idx st out hdates
    have hhead : (pt item.PubDate).isSome := hdates item (by simp)
    have hrest : ∀ it ∈ rest, (pt it.PubDate).isSome := by
      intro it hit; exact hdates it (by simp [hit])
    obtain ⟨pubTime, hpt⟩ := Option.isSome_iff_exists.mp hhead
    cases hcp : CreatePost (flt idx) st (mkPost (gen idx) now item pubTime fid) with
    | ok st2 =>
      simp only [scrapeItems, hpt, hcp]
      exact ih (idx + 1) st2 out hrest
    | error e =>
      by_cases hd : e = dupURLErrMsg
      · simp only [scrapeItems, hpt, hcp, hd, if_pos rfl]
        exact ih (idx + 1) st out hrest
      · simp only [scrapeItems, hpt, hcp, if_neg hd]
        exact ih (idx + 1) st (out ++ [e]) hrest

/-- A URL present in the store stays present through the item loop. -/
theorem scrapeItems_url_mono (pt : String → Option Nat)
    (flt : Nat → Option String) (fid : Nat) (title : String) (now : Nat)
    (gen : Nat → Nat) :
    ∀ (items : List RSSItem) (idx : Nat) (st : Store) (out : List String)
      (u : String), postURLPresent st u = true →
    postURLPresent (scrapeItems pt flt fid title now gen items idx st out).store u
      = true := by
  intro items idx st out u hu
  obtain ⟨l, hl⟩ := scrapeItems_posts_append pt flt fid title now gen items idx st out
  simp only [postURLPresent] at hu ⊢
  rw [hl, List.any_append, hu, Bool.true_or]

/-- After a fault-free run whose dates all parse, every item's link is
present in the resulting store. -/
theorem scrapeItems_links_present (pt : String → Option Nat) (fid : Nat)
    (title : String) (now : Nat) (gen : Nat → Nat) :
    ∀ (items : List RSSItem) (idx : Nat) (st : Store) (out : List String),
    (∀ it ∈ items, (pt it.PubDate).isSome) →
    ∀ it ∈ items,
      postURLPresent
        (scrapeItems pt (fun _ => none) fid title now gen items idx st out).store
        it.Link = true := by
  intro items
  induction items with
  | nil => intro idx st out _ it hit; simp at hit
  | cons item rest ih =>
    intro idx st out hdates it hit
    have hhead : (pt item.PubDate).isSome := hdates item (by simp)
    have hrest : ∀ x ∈ rest, (pt x.PubDate).isSome := by
      intro x hx; exact hdates x (by simp [hx])
    obtain ⟨pubTime, hpt⟩ := Option.isSome_iff_exists.mp hhead
    by_cases hp : postURLPresent st item.Link
    · have hcp : CreatePost none st (mkPost (gen idx) now item pubTime fid)
          = Except.error dupURLErrMsg := by
        simp [CreatePost, mkPost, hp]
      simp only [scrapeItems, hpt, hcp, if_pos rfl]
      rcases List.mem_cons.mp hit with heq | hmem
      · rw [heq]
        exact scrapeItems_url_mono pt (fun _ => none) fid title now gen rest
          (idx + 1) st out item.Link hp
      · exact ih (idx + 1) st out hrest it hmem
    · have hcp : CreatePost none st (mkPost (gen idx) now item pubTime fid)
          = Except.ok { st with
              posts := st.posts ++ [mkPost (gen idx) now item pubTime fid] } := by
        simp [CreatePost, mkPost, hp]
      simp only [scrapeItems, hpt, hcp]
      rcases List.mem_cons.mp hit with heq | hmem
      · rw [heq]
        refine scrapeItems_url_mono pt (fun _ => none) fid title now gen rest
          (idx + 1) _ out item.Link ?_
        simp [postURLPresent, mkPost]
      · exact ih (idx + 1) _ out hrest it hmem

/-- If every item's link is already stored and every date parses, a
fault-free run changes nothing, prints nothing, and succeeds. -/
theorem scrapeItems_all_dup_skip (pt : String → Option Nat) (fid : Nat)
    (title : String) (now : Nat) (gen : Nat → Nat) :
    ∀ (items : List RSSItem) (idx : Nat) (st : Store) (out : List String),
    (∀ it ∈ items, (pt it.PubDate).isSome) →
    (∀ it ∈ items, postURLPresent st it.Link = true) →
    scrapeItems pt (fun _ => none) fid title now gen items idx st out
      = ⟨st, out, none⟩ := by
  intro items
  induction items with
  | nil => intro idx st out _ _; rfl
  | cons item rest ih =>
    intro idx st out hdates hurls
    have hhead : (pt item.PubDate).isSome := hdates item (by simp)
    obtain ⟨pubTime, hpt⟩ := Option.isSome_iff_exists.mp hhead
    have hp : postURLPresent st item.Link = true := hurls item (by simp)
    have hcp : CreatePost none st (mkPost (gen idx) now item pubTime fid)
        = Except.error dupURLErrMsg := by
      simp [CreatePost, mkPost, hp]
    simp only [scrapeItems, hpt, hcp, if_pos rfl]
    exact ih (idx + 1) st out
      (fun x hx => hdates x (by simp [hx]))
      (fun x hx => hurls x (by simp [hx]))

/-- `betterFeed` returns one of its two arguments. -/
theorem betterFeed_eq_or (a b : Feed) : betterFeed a b = a ∨ betterFeed a b = b := by
  unfold betterFeed
  cases a.lastFetchedAt with
  | none => exact Or.inl rfl
  | some ta =>
    cases b.lastFetchedAt with
    | none => exact Or.inr rfl
    | some tb =>
      by_cases h : tb < ta
      · simp [h]
      · simp [h]

/-- Folding `betterFeed` over a list returns the seed or a member. -/
theorem foldl_betterFeed_mem :
    ∀ (fs : List Feed) (a : Feed), fs.foldl betterFeed a ∈ a :: fs := by
  intro fs
  induction fs with
  | nil => intro a; simp
  | cons b rest ih =>
    intro a
    have h := ih (betterFeed a b)
    rcases betterFeed_eq_or a b with hb | hb <;> rw [hb] at h <;>
      simp only [List.foldl_cons] <;> rw [hb]
    · rcases List.mem_cons.mp h with h1 | h1
      · rw [h1]; simp
      · simp [h1]
    · rcases List.mem_cons.mp h with h1 | h1
      · rw [h1]; simp
      · simp [h1]

/-- The selected feed is one of the store's feeds. -/
theorem GetNextFeedToFetch_mem {st : Store} {sel : Feed}
    (h : GetNextFeedToFetch st = Except.ok sel) : sel ∈ st.feeds := by
  unfold GetNextFeedToFetch at h
  cases hf : st.feeds with
  | nil => rw [hf] at h; simp at h
  | cons f fs =>
    rw [hf] at h
    have hm := foldl_betterFeed_mem fs f
    simp only [Except.ok.injEq] at h
    rw [h] at hm
    exact hm

/-- Every stamp precedes itself. -/
theorem stampLE_refl (o : Option Nat) : stampLE o o = true := by
  cases o with
  | none => rfl
  | some x => simp [stampLE]

/-- Marking one feed fetched at a time no earlier than every current
stamp moves every stamp (weakly) forward, pointwise. -/
theorem markFeeds_forall2 (fid : Nat) (now : Nat) :
    ∀ (feeds : List Feed), (∀ f ∈ feeds, stampLE f.lastFetchedAt (some now) = true) →
    List.Forall₂ (fun a b => stampLE a.lastFetchedAt b.lastFetchedAt = true)
      feeds (markFeeds feeds fid now) := by
  intro feeds
  induction feeds with
  | nil => intro _; exact List.Forall₂.nil
  | cons f rest ih =>
    intro h
    have hf : stampLE f.lastFetchedAt (some now) = true := h f (by simp)
    have hrest := ih (fun x hx => h x (by simp [hx]))
    unfold markFeeds
    simp only [List.map_cons]
    refine List.Forall₂.cons ?_ hrest
    by_cases hid : f.id = fid
    · simp only [hid, if_pos rfl]
      exact hf
    · simp only [if_neg hid]
      exact stampLE_refl f.lastFetchedAt

/-! The claims. -/

/-- C6: for every successfully decoded document, HTML-entity unescaping is
applied exactly once to the channel title, the channel description, and
every item's title and description, after structural parsing and before the
document is returned (`fetchFeed` returns exactly `unescapeFeed` of the
parse); in particular "A &amp; B" becomes "A & B". -/
theorem entity_unescaping_applied_once :
    htmlUnescape "A &amp; B" = "A & B"
    ∧ ∀ f : RSSFeed,
      fetchFeed (Except.ok f) = Except.ok (unescapeFeed f)
      ∧ (unescapeFeed f).Channel.Title = htmlUnescape f.Channel.Title
      ∧ (unescapeFeed f).Channel.Description = htmlUnescape f.Channel.Description
      ∧ (unescapeFeed f).Channel.Item = f.Channel.Item.map unescapeItem
      ∧ ∀ it : RSSItem,
          (unescapeItem it).Title = htmlUnescape it.Title
          ∧ (unescapeItem it).Description = htmlUnescape it.Description :=
  ⟨by decide, fun f => ⟨rfl, rfl, rfl, rfl, fun it => ⟨rfl, rfl⟩⟩⟩

/-- C9: unescaping leaves the channel link and every item's link (and
pubDate) exactly as decoded, and the item's link is stored verbatim as the
post's URL; concretely, a link still carrying "&amp;" is stored with the
entity intact. -/
theorem links_left_verbatim :
    (∀ f : RSSFeed,
      (unescapeFeed f).Channel.Link = f.Channel.Link
      ∧ (unescapeFeed f).Channel.Item.map (fun it => it.Link)
          = f.Channel.Item.map (fun it => it.Link)
      ∧ (unescapeFeed f).Channel.Item.map (fun it => it.PubDate)
          = f.Channel.Item.map (fun it => it.PubDate))
    ∧ (∀ (pid nowT pubTime fid : Nat) (item : RSSItem),
        (mkPost pid nowT item pubTime fid).url = item.Link)
    ∧ (unescapeFeed eFeed).Channel.Link = "http://chan?a=1&amp;b=2"
    ∧ (unescapeFeed eFeed).Channel.Item.map (fun it => it.Link) = ["a&amp;b"]
    ∧ (scrapeItems ptAll flt0 9 "t" 0 gen0 (unescapeFeed eFeed).Channel.Item 0
        emptyStore []).store.posts.map (fun p => p.url) = ["a&amp;b"] := by
  refine ⟨fun f => ⟨rfl, ?_, ?_⟩, fun pid nowT pubTime fid item => rfl,
    by decide, by decide, by decide⟩
  · simp [unescapeFeed, unescapeItem, List.map_map, Function.comp]
  · simp [unescapeFeed, unescapeItem, List.map_map, Function.comp]

/-- C5: no outcome of a poll cycle stops the scheduler loop: every
iteration of `handlerAgg`'s loop reports the cycle's error (if any) to the
operator and continues with the next tick. -/
theorem scheduler_loop_never_halts :
    ∀ res : CycleResult,
      (aggIterate res).2 = LoopControl.next
      ∧ (aggIterate res).1 = (match res.err with
          | some e => ["Error scraping feed: " ++ e]
          | none => []) :=
  fun _ => ⟨rfl, rfl⟩

/-- C1: when an entry's insert fails with the uniqueness violation on the
post URL, the pipeline treats it as a benign skip: it continues with the
remaining entries, surfaces no error, and leaves the store (including the
already-stored row) untouched. -/
theorem duplicate_insert_is_benign_skip (pt : String → Option Nat)
    (flt : Nat → Option String) (fid : Nat) (title : String) (now : Nat)
    (gen : Nat → Nat) (item : RSSItem) (rest : List RSSItem) (idx : Nat)
    (st : Store) (out : List String) (pubTime : Nat)
    (hpt : pt item.PubDate = some pubTime)
    (hdup : CreatePost (flt idx) st (mkPost (gen idx) now item pubTime fid)
              = Except.error dupURLErrMsg) :
    scrapeItems pt flt fid title now gen (item :: rest) idx st out
      = scrapeItems pt flt fid title now gen rest (idx + 1) st out := by
  simp [scrapeItems, hpt, hdup]

/-- Witness for C1 at a concrete duplicate insert. -/
theorem duplicate_insert_is_benign_skip_w :
    scrapeItems ptAll flt0 1 "chan" 5 gen0 [c3Item] 0 dupStore []
      = scrapeItems ptAll flt0 1 "chan" 5 gen0 [] 1 dupStore [] :=
  duplicate_insert_is_benign_skip ptAll flt0 1 "chan" 5 gen0 c3Item [] 0
    dupStore [] 0 rfl rfl

/-- C2: an entry whose date string fails the strict parse aborts the whole
document at that entry: the result keeps exactly what processing the
earlier entries produced, attempts no later entry, and returns the error
naming the offending date and the feed. -/
theorem bad_date_aborts_document (pt : String → Option Nat)
    (flt : Nat → Option String) (fid : Nat) (title : String) (now : Nat)
    (gen : Nat → Nat) :
    ∀ (pre : List RSSItem), (∀ it ∈ pre, (pt it.PubDate).isSome) →
    ∀ (bad : RSSItem), pt bad.PubDate = none →
    ∀ (post : List RSSItem) (idx : Nat) (st : Store) (out : List String),
    scrapeItems pt flt fid title now gen (pre ++ bad :: post) idx st out
      = { store := (scrapeItems pt flt fid title now gen pre idx st out).store,
          output := (scrapeItems pt flt fid title now gen pre idx st out).output,
          err := some (dateErrMsg bad.PubDate title) } := by
  intro pre
  induction pre with
  | nil =>
    intro _ bad hbad post idx st out
    simp only [List.nil_append, scrapeItems, hbad]
  | cons item pre' ih =>
    intro hpre bad hbad post idx st out
    have hhead : (pt item.PubDate).isSome := hpre item (by simp)
    have hpre' : ∀ it ∈ pre', (pt it.PubDate).isSome := by
      intro it hit; exact hpre it (by simp [hit])
    obtain ⟨pubTime, hpt⟩ := Option.isSome_iff_exists.mp hhead
    simp only [List.cons_append]
    cases hcp : CreatePost (flt idx) st (mkPost (gen idx) now item pubTime fid) with
    | ok st2 =>
      simp only [scrapeItems, hpt, hcp]
      exact ih hpre' bad hbad post (idx + 1) st2 out
    | error e =>
      by_cases hd : e = dupURLErrMsg
      · simp only [scrapeItems, hpt, hcp, hd, if_pos rfl]
        exact ih hpre' bad hbad post (idx + 1) st out
      · simp only [scrapeItems, hpt, hcp, if_neg hd]
        exact ih hpre' bad hbad post (idx + 1) st (out ++ [e])

/-- Witness for C2: one good entry, then a bad date, then a never-reached
entry. -/
theorem bad_date_aborts_document_w :
    scrapeItems ptW flt0 1 "chan" 5 gen0 ([itemGood1] ++ itemBad :: [itemGood2])
        0 emptyStore []
      = { store := (scrapeItems ptW flt0 1 "chan" 5 gen0 [itemGood1] 0
            emptyStore []).store,
          output := (scrapeItems ptW flt0 1 "chan" 5 gen0 [itemGood1] 0
            emptyStore []).output,
          err := some (dateErrMsg itemBad.PubDate "chan") } :=
  bad_date_aborts_document ptW flt0 1 "chan" 5 gen0 [itemGood1] (by decide)
    itemBad (by decide) [itemGood2] 0 emptyStore []

/-- C3 counterexample: a store error other than the uniqueness violation is
NOT propagated to the scheduler — on a cycle where the single entry's
insert fails with "pq: connection reset by peer", `scrapeFeeds` returns no
error at all; the message only goes to standard output. -/
theorem other_store_error_not_propagated_cex :
    (scrapeFeeds ptAll fltC3 gen0 7 (Except.ok c3RSS) wStore).err = none
    ∧ (scrapeFeeds ptAll fltC3 gen0 7 (Except.ok c3RSS) wStore).output
        = ["pq: connection reset by peer"] :=
  ⟨rfl, rfl⟩

/-- C3 amended: an entry whose insert fails with a store error other than
the uniqueness violation has its message printed to standard output; the
pipeline continues with the remaining entries (so the cycle does not end
early and no error reaches the scheduler from this entry), and previously
committed posts remain in place (the posts table is only ever appended
to). -/
theorem other_store_error_printed_not_propagated (pt : String → Option Nat)
    (flt : Nat → Option String) (fid : Nat) (title : String) (now : Nat)
    (gen : Nat → Nat) (item : RSSItem) (rest : List RSSItem) (idx : Nat)
    (st : Store) (out : List String) (pubTime : Nat) (e : String)
    (hpt : pt item.PubDate = some pubTime)
    (herr : CreatePost (flt idx) st (mkPost (gen idx) now item pubTime fid)
              = Except.error e)
    (hne : e ≠ dupURLErrMsg) :
    scrapeItems pt flt fid title now gen (item :: rest) idx st out
      = scrapeItems pt flt fid title now gen rest (idx + 1) st (out ++ [e])
    ∧ ∃ l, (scrapeItems pt flt fid title now gen (item :: rest) idx st
              out).store.posts = st.posts ++ l := by
  have h1 : scrapeItems pt flt fid title now gen (item :: rest) idx st out
      = scrapeItems pt flt fid title now gen rest (idx + 1) st (out ++ [e]) := by
    simp only [scrapeItems, hpt, herr, if_neg hne]
  refine ⟨h1, ?_⟩
  rw [h1]
  exact scrapeItems_posts_append pt flt fid title now gen rest (idx + 1) st
    (out ++ [e])

/-- Witness for the amended C3 at a concrete faulted insert. -/
theorem other_store_error_printed_not_propagated_w :
    scrapeItems ptAll fltC3 1 "chan" 5 gen0 [c3Item] 0 wStore []
      = scrapeItems ptAll fltC3 1 "chan" 5 gen0 [] 1 wStore
          ([] ++ ["pq: connection reset by peer"])
    ∧ ∃ l, (scrapeItems ptAll fltC3 1 "chan" 5 gen0 [c3Item] 0 wStore
              []).store.posts = wStore.posts ++ l :=
  other_store_error_printed_not_propagated ptAll fltC3 1 "chan" 5 gen0 c3Item
    [] 0 wStore [] 0 "pq: connection reset by peer" rfl rfl (by decide)

/-- C10: an insert failure is classified as a benign duplicate exactly
when its message equals the pq unique-violation string: such a failure is
skipped silently, any other failure message is printed to standard output,
and in both cases the loop continues; if every remaining entry's date
parses, the cycle still reports success. -/
theorem store_error_classified_by_exact_message (pt : String → Option Nat)
    (flt : Nat → Option String) (fid : Nat) (title : String) (now : Nat)
    (gen : Nat → Nat) (item : RSSItem) (rest : List RSSItem) (idx : Nat)
    (st : Store) (out : List String) (pubTime : Nat) (e : String)
    (hpt : pt item.PubDate = some pubTime)
    (herr : CreatePost (flt idx) st (mkPost (gen idx) now item pubTime fid)
              = Except.error e) :
    scrapeItems pt flt fid title now gen (item :: rest) idx st out
      = scrapeItems pt flt fid title now gen rest (idx + 1) st
          (if e = dupURLErrMsg then out else out ++ [e])
    ∧ ((∀ it ∈ rest, (pt it.PubDate).isSome) →
        (scrapeItems pt flt fid title now gen (item :: rest) idx st out).err
          = none) := by
  constructor
  · by_cases hd : e = dupURLErrMsg
    · rw [if_pos hd]
      simp [scrapeItems, hpt, herr, hd]
    · rw [if_neg hd]
      simp only [scrapeItems, hpt, herr, if_neg hd]
  · intro hrest
    apply scrapeItems_err_none
    intro it hit
    rcases List.mem_cons.mp hit with heq | hm
    · rw [heq, hpt]; rfl
    · exact hrest it hm

/-- Witness for C10 at a concrete non-duplicate failure message. -/
theorem store_error_classified_by_exact_message_w :
    scrapeItems ptAll fltC3 2 "chan" 5 gen0 [c3Item] 0 wStore []
      = scrapeItems ptAll fltC3 2 "chan" 5 gen0 [] 1 wStore
          (if "pq: connection reset by peer" = dupURLErrMsg then []
           else [] ++ ["pq: connection reset by peer"])
    ∧ ((∀ it ∈ ([] : List RSSItem), (ptAll it.PubDate).isSome) →
        (scrapeItems ptAll fltC3 2 "chan" 5 gen0 [c3Item] 0 wStore []).err
          = none) :=
  store_error_classified_by_exact_message ptAll fltC3 2 "chan" 5 gen0 c3Item
    [] 0 wStore [] 0 "pq: connection reset by peer" rfl rfl

/-- C4: whenever a cycle selects a feed, that feed's last-fetched stamp is
set to the cycle's "now" in the resulting store for every fetch outcome
(the write precedes and does not depend on the network call), and —
provided the clock is at or past every stored stamp — every feed's stamp
is pointwise non-decreasing across the cycle. -/
theorem feed_marked_before_fetch (pt : String → Option Nat)
    (flt : Nat → Option String) (gen : Nat → Nat) (now : Nat)
    (raw : Except String RSSFeed) (st : Store) (sel : Feed)
    (hsel : GetNextFeedToFetch st = Except.ok sel)
    (hclock : ∀ f ∈ st.feeds, stampLE f.lastFetchedAt (some now) = true) :
    (scrapeFeeds pt flt gen now raw st).store.feeds
      = markFeeds st.feeds sel.id now
    ∧ List.Forall₂ (fun a b => stampLE a.lastFetchedAt b.lastFetchedAt = true)
        st.feeds (scrapeFeeds pt flt gen now raw st).store.feeds := by
  have hmem := GetNextFeedToFetch_mem hsel
  have hany : st.feeds.any (fun f => f.id = sel.id) = true := by
    apply List.any_eq_true.mpr
    exact ⟨sel, hmem, by simp⟩
  have hmark : MarkFeedFetched st sel.id now
      = Except.ok { st with feeds := markFeeds st.feeds sel.id now } := by
    simp [MarkFeedFetched, hany]
  have hfeeds : (scrapeFeeds pt flt gen now raw st).store.feeds
      = markFeeds st.feeds sel.id now := by
    unfold scrapeFeeds
    rw [hsel]
    dsimp only
    rw [hmark]
    dsimp only
    cases hf : fetchFeed raw with
    | error e => rfl
    | ok feed =>
      exact scrapeItems_feeds pt flt sel.id feed.Channel.Title now gen
        feed.Channel.Item 0 _ []
  refine ⟨hfeeds, ?_⟩
  rw [hfeeds]
  exact markFeeds_forall2 sel.id now st.feeds hclock

/-- Witness for C4: the single feed is marked at time 5 while the fetch
itself fails with a transport error. -/
theorem feed_marked_before_fetch_w :
    (scrapeFeeds ptAll flt0 gen0 5 (Except.error "boom") wStore).store.feeds
      = markFeeds wStore.feeds wFeed.id 5
    ∧ List.Forall₂ (fun a b => stampLE a.lastFetchedAt b.lastFetchedAt = true)
        wStore.feeds
        (scrapeFeeds ptAll flt0 gen0 5 (Except.error "boom") wStore).store.feeds :=
  feed_marked_before_fetch ptAll flt0 gen0 5 (Except.error "boom") wStore
    wFeed rfl (by decide)

/-- C7 counterexample: with no feeds in the store, the cycle is not
error-free — `scrapeFeeds` surfaces the store's no-rows failure as its
returned error. -/
theorem empty_store_surfaces_error_cex :
    (scrapeFeeds ptAll flt0 gen0 0 (Except.error "transport") emptyStore).err
      = some "Error getting feed from DB: sql: no rows in result set" :=
  rfl

/-- C7 amended: with no feeds in the store the cycle does no work — the
store is unchanged, nothing is printed to standard output, and the result
does not depend on any fetch outcome — but the cycle surfaces the
selection failure as an error, which the scheduler loop reports before
continuing with the next tick. -/
theorem empty_store_cycle_noop_but_error (pt : String → Option Nat)
    (flt : Nat → Option String) (gen : Nat → Nat) (now : Nat)
    (raw : Except String RSSFeed) (st : Store) (h : st.feeds = []) :
    (scrapeFeeds pt flt gen now raw st).store = st
    ∧ (scrapeFeeds pt flt gen now raw st).output = []
    ∧ (∃ e, (scrapeFeeds pt flt gen now raw st).err = some e)
    ∧ (∀ raw2, scrapeFeeds pt flt gen now raw2 st
         = scrapeFeeds pt flt gen now raw st)
    ∧ (aggIterate (scrapeFeeds pt flt gen now raw st)).2 = LoopControl.next := by
  have hsel : GetNextFeedToFetch st
      = Except.error "sql: no rows in result set" := by
    unfold GetNextFeedToFetch
    rw [h]
  have hrun : ∀ r : Except String RSSFeed, scrapeFeeds pt flt gen now r st
      = ⟨st, [],
         some ("Error getting feed from DB: " ++ "sql: no rows in result set")⟩ := by
    intro r
    unfold scrapeFeeds
    rw [hsel]
  rw [hrun raw]
  exact ⟨rfl, rfl, ⟨_, rfl⟩, fun raw2 => hrun raw2, rfl⟩

/-- Witness for the amended C7 on the concrete empty store. -/
theorem empty_store_cycle_noop_but_error_w :
    (scrapeFeeds ptAll flt0 gen0 3 (Except.error "transport") emptyStore).store
        = emptyStore
    ∧ (scrapeFeeds ptAll flt0 gen0 3 (Except.error "transport")
         emptyStore).output = []
    ∧ (∃ e, (scrapeFeeds ptAll flt0 gen0 3 (Except.error "transport")
         emptyStore).err = some e)
    ∧ (∀ raw2, scrapeFeeds ptAll flt0 gen0 3 raw2 emptyStore
         = scrapeFeeds ptAll flt0 gen0 3 (Except.error "transport") emptyStore)
    ∧ (aggIterate (scrapeFeeds ptAll flt0 gen0 3 (Except.error "transport")
         emptyStore)).2 = LoopControl.next :=
  empty_store_cycle_noop_but_error ptAll flt0 gen0 3 (Except.error "transport")
    emptyStore rfl

/-- C8: ingestion is idempotent — when every entry's date parses and the
store operates without environmental faults, a first run returns no error,
and a second run of the same document for the same feed leaves the stored
posts exactly as the first run left them, prints nothing, and reports
success (every entry is a silent duplicate skip). -/
theorem ingestion_idempotent (pt : String → Option Nat) (fid : Nat)
    (title : String) (now now2 : Nat) (gen gen2 : Nat → Nat)
    (items : List RSSItem) (st : Store)
    (hdates : ∀ it ∈ items, (pt it.PubDate).isSome) :
    (scrapeItems pt (fun _ => none) fid title now gen items 0 st []).err = none
    ∧ scrapeItems pt (fun _ => none) fid title now2 gen2 items 0
        (scrapeItems pt (fun _ => none) fid title now gen items 0 st []).store []
      = ⟨(scrapeItems pt (fun _ => none) fid title now gen items 0 st []).store,
         [], none⟩ := by
  refine ⟨scrapeItems_err_none pt (fun _ => none) fid title now gen items 0 st
    [] hdates, ?_⟩
  apply scrapeItems_all_dup_skip
  · exact hdates
  · intro it hit
    exact scrapeItems_links_present pt fid title now gen items 0 st [] hdates
      it hit

/-- Witness for C8 on a concrete two-entry document. -/
theorem ingestion_idempotent_w :
    (scrapeItems ptW (fun _ => none) 1 "chan" 5 gen0 [itemGood1, itemGood2] 0
        emptyStore []).err = none
    ∧ scrapeItems ptW (fun _ => none) 1 "chan" 6 gen0 [itemGood1, itemGood2] 0
        (scrapeItems ptW (fun _ => none) 1 "chan" 5 gen0
          [itemGood1, itemGood2] 0 emptyStore []).store []
      = ⟨(scrapeItems ptW (fun _ => none) 1 "chan" 5 gen0
           [itemGood1, itemGood2] 0 emptyStore []).store, [], none⟩ :=
  ingestion_idempotent ptW 1 "chan" 5 6 gen0 gen0 [itemGood1, itemGood2]
    emptyStore (by decide)

end Gator
